import Mathlib

/-
Verification of the spectral-estimation core of `bispy` (`bispy/spectral.py`):
the `Periodogram` and `Multitaper` estimators for quaternion-valued bivariate
signals, their Stokes-parameter extraction, and their combination operators.

Modelling conventions:
* Machine floats are modelled by exact rationals (`ℚ`); a quaternion is a
  record of four rationals in the convention `q = a + i·b + j·c + k·d`.
* The external collaborators declared at their interface by the spec — the
  complex discrete Fourier transform primitive (`np.fft.fft`), the helper
  `StokesNorm` from the quaternion-algebra layer, and the DPSS taper bank
  (`spectrum.dpss`) — are abstract parameters (`dft`, `SN`, `tb`) threaded
  through the definitions.
* Python exceptions are modelled by `Except SpectralError`; an operation that
  raises returns `.error e` and produces no estimate state.
-/

set_option autoImplicit false

set_option allowUnsafeReducibility true

attribute [semireducible] Rat.mul Rat.add Rat.sub Rat.inv Rat.div Rat.neg

/-- Quaternion with rational components, convention `q = a + i·b + j·c + k·d`.
The numpy-quaternion dtype used by the source. -/
structure Quat where
  a : ℚ
  b : ℚ
  c : ℚ
  d : ℚ
  deriving DecidableEq

/-- The zero quaternion (`np.zeros(..., dtype='quaternion')` entries). -/
def zeroQ : Quat := ⟨0, 0, 0, 0⟩

instance : Inhabited Quat := ⟨zeroQ⟩

/-- Quaternion addition (componentwise). -/
def qadd (p q : Quat) : Quat := ⟨p.a + q.a, p.b + q.b, p.c + q.c, p.d + q.d⟩

/-- Scaling of a quaternion by a real (rational) scalar, as numpy broadcasting
of `float * quaternion` does. -/
def qsmul (r : ℚ) (q : Quat) : Quat := ⟨r * q.a, r * q.b, r * q.c, r * q.d⟩

/-- Hamilton product of two quaternions. -/
def qmul (p q : Quat) : Quat :=
  ⟨p.a * q.a - p.b * q.b - p.c * q.c - p.d * q.d,
   p.a * q.b + p.b * q.a + p.c * q.d - p.d * q.c,
   p.a * q.c - p.b * q.d + p.c * q.a + p.d * q.b,
   p.a * q.d + p.b * q.c - p.c * q.b + p.d * q.a⟩

/-- `quaternion.y`, the unit quaternion `j`. -/
def jQ : Quat := ⟨0, 0, 1, 0⟩

/-- `np.norm` on a quaternion array entry: the squared magnitude
`a² + b² + c² + d²`, a non-negative real (spec §4.3). -/
def normSq (q : Quat) : ℚ := q.a ^ 2 + q.b ^ 2 + q.c ^ 2 + q.d ^ 2

/-- Embedding of a real into a quaternion with zero imaginary parts, as the
numpy broadcast `float_array + quaternion_array` treats the float operand. -/
def ofReal (r : ℚ) : Quat := ⟨r, 0, 0, 0⟩

/-- Complex number with rational components, modelling a numpy complex entry. -/
structure CQ where
  re : ℚ
  im : ℚ
  deriving DecidableEq

instance : Inhabited CQ := ⟨⟨0, 0⟩⟩

/-- Modelled from the spec: `utils.sympSplit` is code of this repository that
is absent from `src/`.  Spec §4.1: given a quaternion with real parts
`(a, b, c, d)` per the convention `q = a + i·b + j·c + k·d`, produce the two
symplectic planes `g1 = a + i·b` and `g2 = d + i·c`. -/
def sympSplit (q : Quat) : CQ × CQ := (⟨q.a, q.b⟩, ⟨q.d, q.c⟩)

/-- Modelled from the spec: the inverse of the `sympSplit` mapping (spec §4.1
calls the split an invertible bijection; §4.2 recombines with its inverse). -/
def sympSynth (g1 g2 : CQ) : Quat := ⟨g1.re, g1.im, g2.im, g2.re⟩

/-- Modelled from the spec: `qfft.Qfft` is code of this repository that is
absent from `src/`.  Spec §4.2: decompose the input into `(g1, g2)` via the
symplectic split, apply the ordinary complex DFT (`dft`, an external
collaborator, spec §6) independently to each plane, and recombine with the
inverse mapping. -/
def Qfft (dft : List CQ → List CQ) (x : List Quat) : List Quat :=
  let g1 := dft (x.map (fun q => (sympSplit q).1))
  let g2 := dft (x.map (fun q => (sympSplit q).2))
  List.zipWith sympSynth g1 g2

/-- `np.fft.fftfreq N`: frequencies `[0, 1, …, ⌈N/2⌉-1, -⌊N/2⌋, …, -1] / N`. -/
def fftfreq (N : ℕ) : List ℚ :=
  (List.range N).map (fun k => (if 2 * k < N + 1 then (k : ℚ) else (k : ℚ) - N) / N)

/-- `t[1] - t[0]`, the uniform time step.  (Python indexes `t[1]` directly and
would raise `IndexError` on a length-<2 axis; all claims concern proper axes,
modelled here with `getD`.) -/
def dtOf (t : List ℚ) : ℚ := t.getD 1 0 - t.getD 0 0

/-- `np.any(a != b)` on two equal-length float arrays, elementwise. -/
def npAnyNe (s o : List ℚ) : Bool := (List.zipWith (fun x y => decide (x ≠ y)) s o).any id

/-- The Python expression `<numpy boolean> is True`.  `np.any` returns a
`numpy.bool_` scalar, which is never identical to the Python `True` singleton,
so the identity comparison evaluates to `False` regardless of the operand. -/
def numpyBoolIsTrue (_b : Bool) : Bool := false

/-- Errors raised by the source (`ValueError`s, distinguished by message) and
by numpy itself (negative array dimensions in `np.zeros`). -/
inductive SpectralError where
  /-- `'signal array should be of quaternion type.'` -/
  | invalidInputType
  /-- `'Cannot sum Periodograms with differents time arrays'` -/
  | mismatchedAxis
  /-- `'Only scalar multiplication is supported'` -/
  | unsupportedOperand
  /-- numpy `ValueError: negative dimensions are not allowed` from `np.zeros`. -/
  | negativeDimensions
  deriving DecidableEq

/-- Input array together with its dtype: the constructors check
`x.dtype != 'quaternion'`. -/
inductive NpArr where
  /-- quaternion-dtype array -/
  | quat (data : List Quat)
  /-- any non-quaternion dtype (e.g. float) -/
  | real (data : List ℚ)
  deriving DecidableEq

/-- Whether the array has quaternion dtype. -/
def NpArr.isQuatDtype : NpArr → Bool
  | .quat _ => true
  | .real _ => false

/-- The multiplicand of `Estimate.__mul__`: a Python scalar or a numpy array. -/
inductive Operand where
  | scalar (c : ℚ)
  | arr (data : List ℚ)
  deriving DecidableEq

/-- `np.size` of a multiplicand. -/
def npSize : Operand → ℕ
  | .scalar _ => 1
  | .arr l => l.length

/-- The value a size-1 multiplicand contributes when broadcast against the
density array. -/
def operandValue : Operand → ℚ
  | .scalar c => c
  | .arr l => l.getD 0 0

/-- A 2-D numpy array of shape `(nrows, cols.length)`, stored as its list of
columns (the source only ever reads and writes whole columns `a[:, n]`). -/
structure Mat2 (α : Type) where
  nrows : ℕ
  cols : List (List α)
  deriving DecidableEq

/-- `np.mean(..., axis=1)` on an `(N, Nmt)` quaternion array, taken
componentwise on the four real fields (source lines 279–281).  For an empty
column list numpy would produce NaN; with exact rationals `1/0 = 0` yields the
zero quaternion instead. -/
def meanCols (m : Mat2 Quat) : List Quat :=
  (List.range m.nrows).map (fun i =>
    qsmul (1 / (m.cols.length : ℚ))
      (m.cols.foldr (fun col acc => qadd (col.getD i zeroQ) acc) zeroQ))

/-- `_getStokes` (source lines 141–161, identical in both classes):
`g1, g2 = utils.sympSplit(density)`; `S0 = g1.real`; `S1 = g1.imag`;
`S3 = g2.real`; `S2 = g2.imag`; `return S0, S1, S2, S3`. -/
def getStokes (density : List Quat) : List ℚ × List ℚ × List ℚ × List ℚ :=
  let g1 := density.map (fun q => (sympSplit q).1)
  let g2 := density.map (fun q => (sympSplit q).2)
  (g1.map CQ.re, g1.map CQ.im, g2.map CQ.im, g2.map CQ.re)

/-- The per-frequency periodogram density formula of `Periodogram.compute`
(source line 105): `dt / N * (np.norm(Q) + utils.StokesNorm(Q) * quaternion.y)`.
`SN` is the external `StokesNorm` helper (spec §4.3). -/
def perDensityAt (SN : Quat → Quat) (dt : ℚ) (N : ℕ) (q : Quat) : Quat :=
  qsmul (dt / (N : ℚ)) (qadd (ofReal (normSq q)) (qmul (SN q) jQ))

/-- The per-frequency per-taper density formula of `Multitaper.compute`
(source line 309): `dt * (np.norm(Q) + utils.StokesNorm(Q) * quaternion.y)` —
no `1/N` factor. -/
def mtDensityAt (SN : Quat → Quat) (dt : ℚ) (q : Quat) : Quat :=
  qsmul dt (qadd (ofReal (normSq q)) (qmul (SN q) jQ))

/-- Body of `Periodogram.compute` (source lines 95–106): recomputes the density
from `self.t` and `self.signal`. -/
def computePerDensity (dft : List CQ → List CQ) (SN : Quat → Quat)
    (t : List ℚ) (signal : List Quat) : List Quat :=
  let dt := dtOf t
  let N := signal.length
  (Qfft dft signal).map (perDensityAt SN dt N)

/-- State of a `Periodogram` estimate: the public fields of the class. -/
structure Per where
  t : List ℚ
  signal : List Quat
  f : List ℚ
  density : List Quat
  S0 : List ℚ
  S1 : List ℚ
  S2 : List ℚ
  S3 : List ℚ
  S1n : List ℚ
  S2n : List ℚ
  S3n : List ℚ
  Phi : List ℚ
  deriving DecidableEq

instance : Inhabited Per := ⟨[], [], [], [], [], [], [], [], [], [], [], []⟩

/-- `Periodogram.__init__` (source lines 66–93): dtype check, store `t` and
`signal`, frequency axis, zero density, optional `compute()`, Stokes
extraction from the (possibly computed) density, zero-initialized normalized
fields. -/
def mkPeriodogram (dft : List CQ → List CQ) (SN : Quat → Quat)
    (t : List ℚ) (x : NpArr) (computeFlag : Bool) : Except SpectralError Per :=
  match x with
  | .real _ => .error .invalidInputType
  | .quat xs =>
    let N := xs.length
    let dt := dtOf t
    let f := (fftfreq N).map (fun v => v / dt)
    let density := if computeFlag then computePerDensity dft SN t xs
                   else List.replicate N zeroQ
    let s := getStokes density
    .ok { t := t, signal := xs, f := f, density := density,
          S0 := s.1, S1 := s.2.1, S2 := s.2.2.1, S3 := s.2.2.2,
          S1n := List.replicate s.1.length 0, S2n := List.replicate s.1.length 0,
          S3n := List.replicate s.1.length 0, Phi := List.replicate s.1.length 0 }

/-- A manual `p.compute()` call (source lines 95–106): assigns `self.density`
only; no other attribute is touched. -/
def computeMethodPer (dft : List CQ → List CQ) (SN : Quat → Quat) (p : Per) : Per :=
  { p with density := computePerDensity dft SN p.t p.signal }

/-- `Periodogram.__add__` (source lines 109–122).  The guard
`np.any(self.t != other.t) is True` is an identity comparison against the
Python `True` singleton and never fires (see `numpyBoolIsTrue`). -/
def addPer (dft : List CQ → List CQ) (SN : Quat → Quat)
    (self other : Per) : Except SpectralError Per :=
  if numpyBoolIsTrue (npAnyNe self.t other.t) then
    .error .mismatchedAxis
  else
    match mkPeriodogram dft SN self.t (.quat self.signal) false with
    | .error e => .error e
    | .ok n0 =>
      let n1 := { n0 with density := List.zipWith qadd self.density other.density }
      let s := getStokes n1.density
      .ok { n1 with S0 := s.1, S1 := s.2.1, S2 := s.2.2.1, S3 := s.2.2.2 }

/-- `Periodogram.__mul__` (source lines 124–136); `__rmul__` delegates to it. -/
def mulPer (dft : List CQ → List CQ) (SN : Quat → Quat)
    (self : Per) (scalar : Operand) : Except SpectralError Per :=
  if npSize scalar > 1 then
    .error .unsupportedOperand
  else
    match mkPeriodogram dft SN self.t (.quat self.signal) false with
    | .error e => .error e
    | .ok n0 =>
      let n1 := { n0 with density := self.density.map (qsmul (operandValue scalar)) }
      let s := getStokes n1.density
      .ok { n1 with S0 := s.1, S1 := s.2.1, S2 := s.2.2.1, S3 := s.2.2.2 }

/-- State of a `Multitaper` estimate: the public fields of the class. -/
structure Mt where
  t : List ℚ
  signal : List Quat
  f : List ℚ
  densities : Mat2 Quat
  dpssMat : Mat2 ℚ
  density : List Quat
  S0 : List ℚ
  S1 : List ℚ
  S2 : List ℚ
  S3 : List ℚ
  S1n : List ℚ
  S2n : List ℚ
  S3n : List ℚ
  Phi : List ℚ
  deriving DecidableEq

instance : Inhabited Mt :=
  ⟨[], [], [], ⟨0, []⟩, ⟨0, []⟩, [], [], [], [], [], [], [], [], []⟩

/-- Body of `Multitaper.compute` (source lines 293–310): reads `N` and `Nmt`
from the shape of `self.dpss`, replaces `self.dpss` with the taper bank
`dpss(N, bw, Nmt)` (external collaborator `tb`, eigenvalues discarded), then
fills the per-taper densities `densities[:, n]` from the tapered QFTs.
Returns the new `(dpss, densities)` pair; no other attribute is assigned. -/
def computeMtCore (dft : List CQ → List CQ) (SN : Quat → Quat)
    (tb : ℕ → ℚ → ℕ → Mat2 ℚ × List ℚ)
    (t : List ℚ) (signal : List Quat) (dpssOld : Mat2 ℚ) (bw : ℚ) :
    Mat2 ℚ × Mat2 Quat :=
  let N := dpssOld.nrows
  let Nmt := dpssOld.cols.length
  let dt := dtOf t
  let dpssNew := (tb N bw Nmt).1
  let cols := (List.range Nmt).map (fun n =>
    let QFTx := Qfft dft (List.zipWith (fun q w => qsmul w q) signal (dpssNew.cols.getD n []))
    QFTx.map (mtDensityAt SN dt))
  (dpssNew, ⟨N, cols⟩)

/-- `Multitaper.__init__` (source lines 255–291): dtype check, store fields,
frequency axis, `Nmt = int(np.floor(2*bw)) - 1` with NO bandwidth validation
(`np.zeros((N, Nmt))` itself raises on a negative dimension), optional
`compute(bw)`, componentwise average of the per-taper densities, Stokes
extraction, zero-initialized normalized fields. -/
def mkMultitaper (dft : List CQ → List CQ) (SN : Quat → Quat)
    (tb : ℕ → ℚ → ℕ → Mat2 ℚ × List ℚ)
    (t : List ℚ) (x : NpArr) (bw : ℚ) (computeFlag : Bool) :
    Except SpectralError Mt :=
  match x with
  | .real _ => .error .invalidInputType
  | .quat xs =>
    let N := xs.length
    let dt := dtOf t
    let f := (fftfreq N).map (fun v => v / dt)
    let Nmt : ℤ := ⌊(2 * bw : ℚ)⌋ - 1
    if Nmt < 0 then .error .negativeDimensions
    else
      let densities0 : Mat2 Quat := ⟨N, List.replicate Nmt.toNat (List.replicate N zeroQ)⟩
      let dpss0 : Mat2 ℚ := ⟨N, List.replicate Nmt.toNat (List.replicate N 0)⟩
      let comp := if computeFlag then computeMtCore dft SN tb t xs dpss0 bw
                  else (dpss0, densities0)
      let density := meanCols comp.2
      let s := getStokes density
      .ok { t := t, signal := xs, f := f, densities := comp.2, dpssMat := comp.1,
            density := density,
            S0 := s.1, S1 := s.2.1, S2 := s.2.2.1, S3 := s.2.2.2,
            S1n := List.replicate s.1.length 0, S2n := List.replicate s.1.length 0,
            S3n := List.replicate s.1.length 0, Phi := List.replicate s.1.length 0 }

/-- A manual `m.compute(bw)` call: assigns `self.dpss` and `self.densities`
only; in particular the averaged `density` and the Stokes fields — fixed in
`__init__` — are not touched. -/
def computeMethodMt (dft : List CQ → List CQ) (SN : Quat → Quat)
    (tb : ℕ → ℚ → ℕ → Mat2 ℚ × List ℚ) (m : Mt) (bw : ℚ) : Mt :=
  let comp := computeMtCore dft SN tb m.t m.signal m.dpssMat bw
  { m with dpssMat := comp.1, densities := comp.2 }

/-- `Multitaper.__add__` (source lines 312–325); the fresh `new` estimate is
built with the default bandwidth `bw=2.5` and `computeFlag=False`.  The axis
guard is the same dead `... is True` comparison as in `Periodogram.__add__`. -/
def addMt (dft : List CQ → List CQ) (SN : Quat → Quat)
    (tb : ℕ → ℚ → ℕ → Mat2 ℚ × List ℚ)
    (self other : Mt) : Except SpectralError Mt :=
  if numpyBoolIsTrue (npAnyNe self.t other.t) then
    .error .mismatchedAxis
  else
    match mkMultitaper dft SN tb self.t (.quat self.signal) (5 / 2) false with
    | .error e => .error e
    | .ok n0 =>
      let n1 := { n0 with density := List.zipWith qadd self.density other.density }
      let s := getStokes n1.density
      .ok { n1 with S0 := s.1, S1 := s.2.1, S2 := s.2.2.1, S3 := s.2.2.2 }

/-- `Multitaper.__mul__` (source lines 327–339); `__rmul__` delegates to it. -/
def mulMt (dft : List CQ → List CQ) (SN : Quat → Quat)
    (tb : ℕ → ℚ → ℕ → Mat2 ℚ × List ℚ)
    (self : Mt) (scalar : Operand) : Except SpectralError Mt :=
  if npSize scalar > 1 then
    .error .unsupportedOperand
  else
    match mkMultitaper dft SN tb self.t (.quat self.signal) (5 / 2) false with
    | .error e => .error e
    | .ok n0 =>
      let n1 := { n0 with density := self.density.map (qsmul (operandValue scalar)) }
      let s := getStokes n1.density
      .ok { n1 with S0 := s.1, S1 := s.2.1, S2 := s.2.2.1, S3 := s.2.2.2 }

/-
Heap-level view of the operators, for the frame property.  A Python binary
operator allocates the fresh `new = Periodogram(...)` object and every
subsequent attribute assignment in the method body targets `new` alone, so the
net effect on the pre-existing object population is a single append; operand
objects are only read.  The store models the population of live estimates,
operands are addressed by index, and the result index is returned.
-/

/-- Heap-level `Periodogram.__add__`: operands at indices `i`, `j`. -/
def storeAddPer (dft : List CQ → List CQ) (SN : Quat → Quat)
    (s : List Per) (i j : ℕ) : Except SpectralError (List Per × ℕ) :=
  match addPer dft SN (s.getD i default) (s.getD j default) with
  | .error e => .error e
  | .ok v => .ok (s ++ [v], s.length)

/-- Heap-level `Periodogram.__mul__`: operand estimate at index `i`. -/
def storeMulPer (dft : List CQ → List CQ) (SN : Quat → Quat)
    (s : List Per) (i : ℕ) (scalar : Operand) : Except SpectralError (List Per × ℕ) :=
  match mulPer dft SN (s.getD i default) scalar with
  | .error e => .error e
  | .ok v => .ok (s ++ [v], s.length)

/-- Heap-level `Multitaper.__add__`. -/
def storeAddMt (dft : List CQ → List CQ) (SN : Quat → Quat)
    (tb : ℕ → ℚ → ℕ → Mat2 ℚ × List ℚ)
    (s : List Mt) (i j : ℕ) : Except SpectralError (List Mt × ℕ) :=
  match addMt dft SN tb (s.getD i default) (s.getD j default) with
  | .error e => .error e
  | .ok v => .ok (s ++ [v], s.length)

/-- Heap-level `Multitaper.__mul__`. -/
def storeMulMt (dft : List CQ → List CQ) (SN : Quat → Quat)
    (tb : ℕ → ℚ → ℕ → Mat2 ℚ × List ℚ)
    (s : List Mt) (i : ℕ) (scalar : Operand) : Except SpectralError (List Mt × ℕ) :=
  match mulMt dft SN tb (s.getD i default) scalar with
  | .error e => .error e
  | .ok v => .ok (s ++ [v], s.length)

/-
Concrete collaborator instances used by the closed witnesses and
counterexamples.  Any concrete choice satisfying the collaborator interfaces
is admissible; these are the simplest ones.
-/

/-- A concrete (length-preserving) DFT collaborator for witnesses: the
identity transform. -/
def cDft : List CQ → List CQ := fun l => l

/-- A concrete `StokesNorm` collaborator for witnesses: constantly zero, which
is purely imaginary. -/
def cSN : Quat → Quat := fun _ => zeroQ

/-- A concrete taper-bank collaborator for witnesses: all-ones tapers with
unit eigenvalues. -/
def cTB : ℕ → ℚ → ℕ → Mat2 ℚ × List ℚ :=
  fun N _ k => (⟨N, List.replicate k (List.replicate N 1)⟩, List.replicate k 1)

/-- Unwrap a concrete successful construction. -/
def getOkPer (x : Except SpectralError Per) : Per :=
  match x with
  | .ok e => e
  | .error _ => default

/-- Unwrap a concrete successful `Multitaper` construction. -/
def getOkMt (x : Except SpectralError Mt) : Mt :=
  match x with
  | .ok e => e
  | .error _ => default

/-
Shared list-indexing helper lemmas.
-/

theorem numpyBoolIsTrue_eq_false (b : Bool) : numpyBoolIsTrue b = false := rfl

theorem getD_map_of_lt {α β : Type} (f : α → β) (l : List α) (k : ℕ)
    (h : k < l.length) (d : β) (d' : α) :
    (l.map f).getD k d = f (l.getD k d') := by
  rw [List.getD_eq_getElem _ _ (by simpa using h), List.getD_eq_getElem _ _ h]
  exact List.getElem_map f

theorem getD_zipWith_of_lt {α β γ : Type} (f : α → β → γ) (la : List α) (lb : List β)
    (k : ℕ) (ha : k < la.length) (hb : k < lb.length) (d : γ) (da : α) (db : β) :
    (List.zipWith f la lb).getD k d = f (la.getD k da) (lb.getD k db) := by
  rw [List.getD_eq_getElem _ _ (by simp [List.length_zipWith]; omega),
    List.getD_eq_getElem _ _ ha, List.getD_eq_getElem _ _ hb]
  exact List.getElem_zipWith

theorem getD_range_of_lt (n k : ℕ) (h : k < n) (d : ℕ) :
    (List.range n).getD k d = k := by
  rw [List.getD_eq_getElem _ _ (by simpa using h)]
  exact List.getElem_range _ _

theorem getD_replicate {α : Type} (n k : ℕ) (x d : α) (h : k < n) :
    (List.replicate n x).getD k d = x := by
  rw [List.getD_eq_getElem _ _ (by simpa using h)]
  exact List.getElem_replicate _ _

theorem getD_of_length_le {α : Type} (l : List α) (k : ℕ) (h : l.length ≤ k) (d : α) :
    l.getD k d = d := by
  simp [List.getD, List.getElem?_eq_none (by simpa using h)]

theorem length_Qfft (dft : List CQ → List CQ) (hdft : ∀ l, (dft l).length = l.length)
    (x : List Quat) : (Qfft dft x).length = x.length := by
  simp [Qfft, List.length_zipWith, hdft]

/-- The Stokes tuple componentwise: `S0` is the real part of the density. -/
theorem getStokes_S0 (d : List Quat) : (getStokes d).1 = d.map (fun q => q.a) := by
  simp [getStokes, List.map_map]
  exact fun a _ => rfl

/-- C2: Stokes extraction first applies the symplectic split to the density,
obtaining `(g1, g2)`, and returns `S0 = Re g1`, `S1 = Im g1`, `S3 = Re g2`,
`S2 = Im g2` — the returned `(S0, S1, S2, S3)` tuple takes `S2` and `S3` from
`g2` in that crossed order; both estimator classes store exactly this
extraction of their density. -/
theorem C2_stokes_extraction_order :
    (∀ density : List Quat,
      getStokes density =
        (density.map (fun q => ((sympSplit q).1).re),
         density.map (fun q => ((sympSplit q).1).im),
         density.map (fun q => ((sympSplit q).2).im),
         density.map (fun q => ((sympSplit q).2).re)))
    ∧ (∀ dft SN t x flag e, mkPeriodogram dft SN t x flag = .ok e →
        (e.S0, e.S1, e.S2, e.S3) = getStokes e.density)
    ∧ (∀ dft SN tb t x bw flag m, mkMultitaper dft SN tb t x bw flag = .ok m →
        (m.S0, m.S1, m.S2, m.S3) = getStokes m.density) := by
  refine ⟨fun density => ?_, fun dft SN t x flag e he => ?_,
    fun dft SN tb t x bw flag m hm => ?_⟩
  · simp only [getStokes, List.map_map]
    rfl
  · cases x with
    | real l => simp [mkPeriodogram] at he
    | quat xs =>
      simp only [mkPeriodogram, Except.ok.injEq] at he
      subst he
      rfl
  · cases x with
    | real l => simp [mkMultitaper] at hm
    | quat xs =>
      simp only [mkMultitaper] at hm
      split at hm
      · exact absurd hm (by simp)
      · simp only [Except.ok.injEq] at hm
        subst hm
        rfl

/-- Witness for C2 at a concrete density and concrete constructions. -/
theorem C2_stokes_extraction_order_witness :
    (getStokes [⟨1, 2, 3, 4⟩] = ([1], [2], [3], [4]))
    ∧ (mkPeriodogram cDft cSN [0, 1] (.quat [⟨1, 0, 0, 0⟩]) true
        = .ok (getOkPer (mkPeriodogram cDft cSN [0, 1] (.quat [⟨1, 0, 0, 0⟩]) true)))
    ∧ ((getOkPer (mkPeriodogram cDft cSN [0, 1] (.quat [⟨1, 0, 0, 0⟩]) true)).S0,
       (getOkPer (mkPeriodogram cDft cSN [0, 1] (.quat [⟨1, 0, 0, 0⟩]) true)).S1,
       (getOkPer (mkPeriodogram cDft cSN [0, 1] (.quat [⟨1, 0, 0, 0⟩]) true)).S2,
       (getOkPer (mkPeriodogram cDft cSN [0, 1] (.quat [⟨1, 0, 0, 0⟩]) true)).S3)
        = getStokes (getOkPer (mkPeriodogram cDft cSN [0, 1] (.quat [⟨1, 0, 0, 0⟩]) true)).density
    ∧ (mkMultitaper cDft cSN cTB [0, 1] (.quat [⟨1, 0, 0, 0⟩]) (5 / 2) true
        = .ok (getOkMt (mkMultitaper cDft cSN cTB [0, 1] (.quat [⟨1, 0, 0, 0⟩]) (5 / 2) true)))
    ∧ ((getOkMt (mkMultitaper cDft cSN cTB [0, 1] (.quat [⟨1, 0, 0, 0⟩]) (5 / 2) true)).S0,
       (getOkMt (mkMultitaper cDft cSN cTB [0, 1] (.quat [⟨1, 0, 0, 0⟩]) (5 / 2) true)).S1,
       (getOkMt (mkMultitaper cDft cSN cTB [0, 1] (.quat [⟨1, 0, 0, 0⟩]) (5 / 2) true)).S2,
       (getOkMt (mkMultitaper cDft cSN cTB [0, 1] (.quat [⟨1, 0, 0, 0⟩]) (5 / 2) true)).S3)
        = getStokes (getOkMt (mkMultitaper cDft cSN cTB [0, 1] (.quat [⟨1, 0, 0, 0⟩]) (5 / 2) true)).density :=
  ⟨by decide,
   by rfl,
   C2_stokes_extraction_order.2.1 cDft cSN [0, 1] (.quat [⟨1, 0, 0, 0⟩]) true _ (by rfl),
   by rfl,
   C2_stokes_extraction_order.2.2 cDft cSN cTB [0, 1] (.quat [⟨1, 0, 0, 0⟩]) (5 / 2) true _ (by rfl)⟩

/-- C9: constructing either estimator on a non-quaternion-dtype signal array
raises the invalid-input-type error; no estimate state (frequency axis,
density, Stokes fields) is ever produced. -/
theorem C9_invalid_dtype_rejected (dft : List CQ → List CQ) (SN : Quat → Quat)
    (tb : ℕ → ℚ → ℕ → Mat2 ℚ × List ℚ) (t : List ℚ) (x : NpArr)
    (hx : x.isQuatDtype = false) (flag : Bool) (bw : ℚ) :
    mkPeriodogram dft SN t x flag = .error .invalidInputType
    ∧ mkMultitaper dft SN tb t x bw flag = .error .invalidInputType := by
  cases x with
  | quat xs => simp [NpArr.isQuatDtype] at hx
  | real l => exact ⟨rfl, rfl⟩

/-- Witness for C9 on a concrete float-dtype array. -/
theorem C9_invalid_dtype_rejected_witness :
    (NpArr.real [1, 2]).isQuatDtype = false
    ∧ mkPeriodogram cDft cSN [0, 1] (.real [1, 2]) true = .error .invalidInputType
    ∧ mkMultitaper cDft cSN cTB [0, 1] (.real [1, 2]) (5 / 2) true = .error .invalidInputType :=
  ⟨rfl, C9_invalid_dtype_rejected cDft cSN cTB [0, 1] (.real [1, 2]) rfl true (5 / 2)⟩

/-- C8: multiplying an estimate by an operand of size greater than 1 raises
the unsupported-operand error and no result estimate is produced; multiplying
by any size-1 operand succeeds and scales the density, in both classes. -/
theorem C8_scalar_multiplication_guard (dft : List CQ → List CQ) (SN : Quat → Quat)
    (tb : ℕ → ℚ → ℕ → Mat2 ℚ × List ℚ) (e : Per) (m : Mt) (s : Operand) :
    (1 < npSize s →
      mulPer dft SN e s = .error .unsupportedOperand
      ∧ mulMt dft SN tb m s = .error .unsupportedOperand)
    ∧ (npSize s = 1 →
      (∃ r, mulPer dft SN e s = .ok r
        ∧ r.density = e.density.map (qsmul (operandValue s)))
      ∧ (∃ r, mulMt dft SN tb m s = .ok r
        ∧ r.density = m.density.map (qsmul (operandValue s)))) := by
  constructor
  · intro h
    constructor
    · simp only [mulPer, if_pos h]
    · simp only [mulMt, if_pos h]
  · intro h
    constructor
    · simp only [mulPer, h, if_neg (by omega : ¬ (1:ℕ) > 1), mkPeriodogram]
      exact ⟨_, rfl, rfl⟩
    · simp only [mulMt, h, if_neg (by omega : ¬ (1:ℕ) > 1), mkMultitaper]
      split
      next err heq =>
        rw [if_neg (by decide : ¬ ((⌊(2 * (5 / 2 : ℚ))⌋ - 1 : ℤ) < 0))] at heq
        exact absurd heq (by simp)
      next n0 heq =>
        exact ⟨_, rfl, rfl⟩

/-- A concrete valid `Periodogram` estimate used by witnesses. -/
def perOne : Per :=
  getOkPer (mkPeriodogram cDft cSN [0, 1] (.quat [⟨1, 0, 0, 0⟩, zeroQ]) true)

/-- A concrete valid `Multitaper` estimate used by witnesses. -/
def mtOne : Mt :=
  getOkMt (mkMultitaper cDft cSN cTB [0, 1] (.quat [⟨1, 0, 0, 0⟩, zeroQ]) (5 / 2) true)

/-- Witness for C8: a size-2 multiplicand is rejected by both classes, a
scalar multiplicand scales the density. -/
theorem C8_scalar_multiplication_guard_witness :
    (1 < npSize (.arr [1, 2]))
    ∧ (mulPer cDft cSN perOne (.arr [1, 2]) = .error .unsupportedOperand
      ∧ mulMt cDft cSN cTB mtOne (.arr [1, 2]) = .error .unsupportedOperand)
    ∧ (npSize (.scalar 3) = 1)
    ∧ ((∃ r, mulPer cDft cSN perOne (.scalar 3) = .ok r
        ∧ r.density = perOne.density.map (qsmul (operandValue (.scalar 3))))
      ∧ (∃ r, mulMt cDft cSN cTB mtOne (.scalar 3) = .ok r
        ∧ r.density = mtOne.density.map (qsmul (operandValue (.scalar 3))))) :=
  ⟨by decide,
   (C8_scalar_multiplication_guard cDft cSN cTB perOne mtOne (.arr [1, 2])).1 (by decide),
   rfl,
   (C8_scalar_multiplication_guard cDft cSN cTB perOne mtOne (.scalar 3)).2 rfl⟩

/-- Doubling a quaternion. -/
theorem qadd_self_eq_qsmul_two (q : Quat) : qadd q q = qsmul 2 q := by
  cases q
  simp only [qadd, qsmul, Quat.mk.injEq]
  exact ⟨by ring, by ring, by ring, by ring⟩

/-- Summing a quaternion array with itself doubles it elementwise. -/
theorem zipWith_qadd_self (l : List Quat) : List.zipWith qadd l l = l.map (qsmul 2) := by
  induction l with
  | nil => rfl
  | cons hd tl ih => simp [List.zipWith, ih, qadd_self_eq_qsmul_two]

/-- C5: for an estimate built from any valid `(t, x)`, the density of
`Estimate + Estimate` equals the density of `2 * Estimate` elementwise
(`2 * e` dispatches through `__rmul__` to `__mul__(2)`). -/
theorem C5_add_self_eq_two_mul (dft : List CQ → List CQ) (SN : Quat → Quat)
    (t : List ℚ) (xs : List Quat) (e r1 r2 : Per)
    (_he : mkPeriodogram dft SN t (.quat xs) true = .ok e)
    (h1 : addPer dft SN e e = .ok r1)
    (h2 : mulPer dft SN e (.scalar 2) = .ok r2) :
    r1.density = r2.density := by
  simp only [addPer, numpyBoolIsTrue, Bool.false_eq_true, if_false, mkPeriodogram,
    Except.ok.injEq] at h1
  simp only [mulPer, npSize, gt_iff_lt, Nat.lt_irrefl, if_false, mkPeriodogram,
    Except.ok.injEq] at h2
  subst h1
  subst h2
  simp only [operandValue]
  exact zipWith_qadd_self e.density

/-- Witness for C5 at a concrete valid `(t, x)`. -/
theorem C5_add_self_eq_two_mul_witness :
    (mkPeriodogram cDft cSN [0, 1] (.quat [⟨1, 0, 0, 0⟩, zeroQ]) true = .ok perOne)
    ∧ (addPer cDft cSN perOne perOne
        = .ok (getOkPer (addPer cDft cSN perOne perOne)))
    ∧ (mulPer cDft cSN perOne (.scalar 2)
        = .ok (getOkPer (mulPer cDft cSN perOne (.scalar 2))))
    ∧ (getOkPer (addPer cDft cSN perOne perOne)).density
        = (getOkPer (mulPer cDft cSN perOne (.scalar 2))).density :=
  ⟨by rfl, by rfl, by rfl,
   C5_add_self_eq_two_mul cDft cSN [0, 1] [⟨1, 0, 0, 0⟩, zeroQ] perOne _ _
     (by rfl) (by rfl) (by rfl)⟩

/-- Composing two real scalings of a quaternion. -/
theorem qsmul_qsmul (r s : ℚ) (q : Quat) : qsmul r (qsmul s q) = qsmul (r * s) q := by
  cases q
  simp only [qsmul, Quat.mk.injEq]
  exact ⟨by ring, by ring, by ring, by ring⟩

/-- C1: the eagerly computed `Periodogram` density at each frequency index `k`
is `(Δt/N)·(norm(QFT(x)[k]) + StokesNorm(QFT(x)[k])·j)`; each per-taper
`Multitaper` density column entry is `Δt·(norm(Qn[k]) + StokesNorm(Qn[k])·j)`
for the tapered transform `Qn = QFT(x ⊙ taper_n)` — no `1/N` factor; and the
two per-frequency scalings differ exactly by that `1/N` factor. -/
theorem C1_density_normalization (dft : List CQ → List CQ) (SN : Quat → Quat)
    (tb : ℕ → ℚ → ℕ → Mat2 ℚ × List ℚ)
    (hdft : ∀ l : List CQ, (dft l).length = l.length)
    (t : List ℚ) (xs : List Quat) (bw : ℚ) (e : Per) (m : Mt)
    (he : mkPeriodogram dft SN t (.quat xs) true = .ok e)
    (hm : mkMultitaper dft SN tb t (.quat xs) bw true = .ok m) :
    (∀ k, k < xs.length →
      e.density.getD k zeroQ
        = perDensityAt SN (dtOf t) xs.length ((Qfft dft xs).getD k zeroQ))
    ∧ (∀ n, n < m.densities.cols.length →
        ∀ k, k < (m.densities.cols.getD n []).length →
          (m.densities.cols.getD n []).getD k zeroQ
            = mtDensityAt SN (dtOf t)
                ((Qfft dft (List.zipWith (fun q w => qsmul w q) xs
                    (m.dpssMat.cols.getD n []))).getD k zeroQ))
    ∧ (∀ (dt : ℚ) (N : ℕ) (q : Quat),
        perDensityAt SN dt N q = qsmul (1 / (N : ℚ)) (mtDensityAt SN dt q)) := by
  refine ⟨?_, ?_, ?_⟩
  · intro k hk
    simp only [mkPeriodogram, Except.ok.injEq] at he
    subst he
    show (computePerDensity dft SN t xs).getD k zeroQ = _
    unfold computePerDensity
    rw [getD_map_of_lt _ _ _ (by rw [length_Qfft dft hdft]; exact hk) _ zeroQ]
  · simp only [mkMultitaper] at hm
    split at hm
    · exact absurd hm (by simp)
    · simp only [Except.ok.injEq] at hm
      subst hm
      intro n hn k hk
      simp only [computeMtCore, if_true, List.length_map, List.length_range,
        List.length_replicate] at hn hk ⊢
      rw [getD_map_of_lt _ _ _ (by simpa using hn) _ 0,
        getD_range_of_lt _ _ (by simpa using hn)] at hk ⊢
      rw [getD_map_of_lt _ _ _ (by simpa using hk) _ zeroQ]
  · intro dt N q
    simp only [perDensityAt, mtDensityAt]
    rw [qsmul_qsmul]
    congr 1
    ring

/-- Witness for C1 at concrete collaborators and a concrete signal. -/
theorem C1_density_normalization_witness :
    (∀ l : List CQ, (cDft l).length = l.length)
    ∧ (mkPeriodogram cDft cSN [0, 1] (.quat [⟨1, 0, 0, 0⟩, zeroQ]) true = .ok perOne)
    ∧ (mkMultitaper cDft cSN cTB [0, 1] (.quat [⟨1, 0, 0, 0⟩, zeroQ]) (5 / 2) true = .ok mtOne)
    ∧ perDensityAt cSN 1 2 jQ = qsmul (1 / ((2 : ℕ) : ℚ)) (mtDensityAt cSN 1 jQ) :=
  ⟨fun _ => rfl, by rfl, by rfl,
   (C1_density_normalization cDft cSN cTB (fun _ => rfl) [0, 1] [⟨1, 0, 0, 0⟩, zeroQ]
     (5 / 2) perOne mtOne (by rfl) (by rfl)).2.2 1 2 jQ⟩

/-- A second concrete estimate whose time axis differs from `perOne`'s. -/
def perOther : Per :=
  getOkPer (mkPeriodogram cDft cSN [0, 2] (.quat [⟨1, 0, 0, 0⟩, zeroQ]) true)

/-- C3 (at the failing input, plus the general behaviour): the time axes of
`perOne` and `perOther` differ, yet `__add__` raises nothing and returns the
summed estimate — the guard `np.any(self.t != other.t) is True` compares a
`numpy.bool_` to the Python `True` singleton by identity and never fires; for
every pair of operands (equal axes included) addition succeeds and the result
density is the elementwise sum. -/
theorem C3_axis_guard_never_fires :
    (perOne.t ≠ perOther.t
      ∧ npAnyNe perOne.t perOther.t = true
      ∧ ∃ r, addPer cDft cSN perOne perOther = .ok r
          ∧ r.density = List.zipWith qadd perOne.density perOther.density)
    ∧ (∀ (dft : List CQ → List CQ) (SN : Quat → Quat) (e1 e2 : Per),
        ∃ r, addPer dft SN e1 e2 = .ok r
          ∧ r.density = List.zipWith qadd e1.density e2.density) := by
  refine ⟨⟨by decide, by decide, _, by rfl, by rfl⟩, ?_⟩
  intro dft SN e1 e2
  simp only [addPer, numpyBoolIsTrue, Bool.false_eq_true, if_false, mkPeriodogram]
  exact ⟨_, rfl, rfl⟩

/-- C4 counterexample: `bandwidth = 1/2` yields `Nmt = floor(2·bw) − 1 = 0 < 1`,
yet `Multitaper.__init__` raises nothing at all — there is no bandwidth
validation in the constructor; it completes with an empty taper bank. -/
theorem C4_counterexample_no_bandwidth_error :
    ((⌊(2 * (1 / 2 : ℚ))⌋ - 1 : ℤ) < 1)
    ∧ (mkMultitaper cDft cSN cTB [0, 1] (.quat [⟨1, 0, 0, 0⟩, zeroQ]) (1 / 2) true).isOk = true
    ∧ (getOkMt (mkMultitaper cDft cSN cTB [0, 1] (.quat [⟨1, 0, 0, 0⟩, zeroQ]) (1 / 2) true)).densities.cols = [] := by
  exact ⟨by decide, by rfl, by rfl⟩

/-- C4 amended: the constructor performs no bandwidth validation.  Whenever
`Nmt = floor(2·bw) − 1` is non-negative — including the degenerate `Nmt = 0`,
where the claim demands an `InvalidBandwidthError` — construction succeeds;
when `Nmt` is negative the `np.zeros((N, Nmt))` allocation itself fails with
numpy's negative-dimensions error, not a bandwidth error. -/
theorem C4_amended_no_bandwidth_validation (dft : List CQ → List CQ) (SN : Quat → Quat)
    (tb : ℕ → ℚ → ℕ → Mat2 ℚ × List ℚ) (t : List ℚ) (xs : List Quat) (bw : ℚ)
    (flag : Bool) :
    ((0 : ℤ) ≤ ⌊(2 * bw : ℚ)⌋ - 1 →
      (mkMultitaper dft SN tb t (.quat xs) bw flag).isOk = true)
    ∧ (⌊(2 * bw : ℚ)⌋ - 1 < 0 →
      mkMultitaper dft SN tb t (.quat xs) bw flag = .error .negativeDimensions) := by
  constructor
  · intro h
    simp only [mkMultitaper, if_neg (by omega : ¬ (⌊(2 * bw : ℚ)⌋ - 1 < 0))]
    rfl
  · intro h
    simp only [mkMultitaper, if_pos h]

/-- Witness for C4 amended, on both sides of the dead boundary. -/
theorem C4_amended_no_bandwidth_validation_witness :
    ((0 : ℤ) ≤ ⌊(2 * (1 / 2 : ℚ))⌋ - 1)
    ∧ (mkMultitaper cDft cSN cTB [0, 1] (.quat [⟨1, 0, 0, 0⟩, zeroQ]) (1 / 2) true).isOk = true
    ∧ (⌊(2 * (1 / 5 : ℚ))⌋ - 1 < 0)
    ∧ mkMultitaper cDft cSN cTB [0, 1] (.quat [⟨1, 0, 0, 0⟩, zeroQ]) (1 / 5) true
        = .error .negativeDimensions :=
  ⟨by decide,
   (C4_amended_no_bandwidth_validation cDft cSN cTB [0, 1] [⟨1, 0, 0, 0⟩, zeroQ]
     (1 / 2) true).1 (by decide),
   by decide,
   (C4_amended_no_bandwidth_validation cDft cSN cTB [0, 1] [⟨1, 0, 0, 0⟩, zeroQ]
     (1 / 5) true).2 (by decide)⟩

/-- C7: every operator, when it succeeds, returns a freshly allocated estimate
(its index `n` is the first index past the pre-existing population) and leaves
every pre-existing estimate — in particular both operands, with all their
fields — unchanged. -/
theorem C7_operators_leave_operands_unchanged (dft : List CQ → List CQ)
    (SN : Quat → Quat) (tb : ℕ → ℚ → ℕ → Mat2 ℚ × List ℚ) :
    (∀ (s : List Per) (i j : ℕ) (s' : List Per) (n : ℕ),
      storeAddPer dft SN s i j = .ok (s', n) →
      n = s.length ∧ ∀ k, k < s.length → s'.getD k default = s.getD k default)
    ∧ (∀ (s : List Per) (i : ℕ) (c : Operand) (s' : List Per) (n : ℕ),
      storeMulPer dft SN s i c = .ok (s', n) →
      n = s.length ∧ ∀ k, k < s.length → s'.getD k default = s.getD k default)
    ∧ (∀ (s : List Mt) (i j : ℕ) (s' : List Mt) (n : ℕ),
      storeAddMt dft SN tb s i j = .ok (s', n) →
      n = s.length ∧ ∀ k, k < s.length → s'.getD k default = s.getD k default)
    ∧ (∀ (s : List Mt) (i : ℕ) (c : Operand) (s' : List Mt) (n : ℕ),
      storeMulMt dft SN tb s i c = .ok (s', n) →
      n = s.length ∧ ∀ k, k < s.length → s'.getD k default = s.getD k default) := by
  refine ⟨fun s i j s' n h => ?_, fun s i c s' n h => ?_,
    fun s i j s' n h => ?_, fun s i c s' n h => ?_⟩
  · unfold storeAddPer at h
    cases hop : addPer dft SN (s.getD i default) (s.getD j default) with
    | error er => rw [hop] at h; exact absurd h (by simp)
    | ok v =>
      rw [hop] at h
      simp only [Except.ok.injEq, Prod.mk.injEq] at h
      refine ⟨h.2.symm, fun k hk => ?_⟩
      rw [← h.1]
      exact List.getD_append _ _ _ _ hk
  · unfold storeMulPer at h
    cases hop : mulPer dft SN (s.getD i default) c with
    | error er => rw [hop] at h; exact absurd h (by simp)
    | ok v =>
      rw [hop] at h
      simp only [Except.ok.injEq, Prod.mk.injEq] at h
      refine ⟨h.2.symm, fun k hk => ?_⟩
      rw [← h.1]
      exact List.getD_append _ _ _ _ hk
  · unfold storeAddMt at h
    cases hop : addMt dft SN tb (s.getD i default) (s.getD j default) with
    | error er => rw [hop] at h; exact absurd h (by simp)
    | ok v =>
      rw [hop] at h
      simp only [Except.ok.injEq, Prod.mk.injEq] at h
      refine ⟨h.2.symm, fun k hk => ?_⟩
      rw [← h.1]
      exact List.getD_append _ _ _ _ hk
  · unfold storeMulMt at h
    cases hop : mulMt dft SN tb (s.getD i default) c with
    | error er => rw [hop] at h; exact absurd h (by simp)
    | ok v =>
      rw [hop] at h
      simp only [Except.ok.injEq, Prod.mk.injEq] at h
      refine ⟨h.2.symm, fun k hk => ?_⟩
      rw [← h.1]
      exact List.getD_append _ _ _ _ hk

/-- Unwrap a concrete successful heap-level `Periodogram` operation. -/
def getOkStorePer (x : Except SpectralError (List Per × ℕ)) : List Per × ℕ :=
  match x with
  | .ok p => p
  | .error _ => ([], 0)

/-- Witness for C7 on a concrete one-estimate store. -/
theorem C7_operators_leave_operands_unchanged_witness :
    (storeAddPer cDft cSN [perOne] 0 0
      = .ok (getOkStorePer (storeAddPer cDft cSN [perOne] 0 0)))
    ∧ ((getOkStorePer (storeAddPer cDft cSN [perOne] 0 0)).2 = [perOne].length
      ∧ ∀ k, k < [perOne].length →
        (getOkStorePer (storeAddPer cDft cSN [perOne] 0 0)).1.getD k default
          = [perOne].getD k default) :=
  ⟨by rfl,
   (C7_operators_leave_operands_unchanged cDft cSN cTB).1 [perOne] 0 0 _ _ (by rfl)⟩

/-- `getD` with the replicated element as default is that element. -/
theorem getD_replicate_self {α : Type} (n i : ℕ) (x : α) :
    (List.replicate n x).getD i x = x := by
  by_cases h : i < n
  · exact getD_replicate n i x x h
  · exact getD_of_length_le _ _ (by simpa using Nat.le_of_not_lt h) _

/-- Stokes extraction of an all-zero density is all-zero. -/
theorem getStokes_replicate_zero (N : ℕ) :
    getStokes (List.replicate N zeroQ)
      = (List.replicate N 0, List.replicate N 0, List.replicate N 0,
         List.replicate N 0) := by
  simp only [getStokes, List.map_replicate]
  rfl

/-- The componentwise mean of an all-zero per-taper density array is the
all-zero density (for any number of tapers, including zero). -/
theorem meanCols_replicate_zero (N k : ℕ) :
    meanCols ⟨N, List.replicate k (List.replicate N zeroQ)⟩
      = List.replicate N zeroQ := by
  unfold meanCols
  have hsum : ∀ i : ℕ,
      (List.replicate k (List.replicate N zeroQ)).foldr
        (fun col acc => qadd (col.getD i zeroQ) acc) zeroQ = zeroQ := by
    intro i
    induction k with
    | zero => rfl
    | succ k ih =>
      simp only [List.replicate, List.foldr_cons, ih, getD_replicate_self]
      simp [qadd, zeroQ]
  have hzero : ∀ c : ℚ, qsmul c zeroQ = zeroQ := by
    intro c
    simp [qsmul, zeroQ]
  simp only [hsum, hzero]
  rw [List.map_const', List.length_range]

/-- C10: after deferred construction (`computeFlag=False`), a manual
`compute()` call updates only `Periodogram.density` (resp. `Multitaper.dpss`
and `Multitaper.densities`); the Stokes fields `S0–S3` fixed at construction
stay all-zero, and for `Multitaper` the averaged `density` field also stays
all-zero — the deferred workflow never yields the computed Stokes
parameters. -/
theorem C10_deferred_compute_keeps_stokes_zero (dft : List CQ → List CQ)
    (SN : Quat → Quat) (tb : ℕ → ℚ → ℕ → Mat2 ℚ × List ℚ)
    (t : List ℚ) (xs : List Quat) (bw : ℚ) (e : Per) (m : Mt)
    (he : mkPeriodogram dft SN t (.quat xs) false = .ok e)
    (hm : mkMultitaper dft SN tb t (.quat xs) bw false = .ok m) :
    ((computeMethodPer dft SN e).density = computePerDensity dft SN t xs
     ∧ (computeMethodPer dft SN e).S0 = List.replicate xs.length 0
     ∧ (computeMethodPer dft SN e).S1 = List.replicate xs.length 0
     ∧ (computeMethodPer dft SN e).S2 = List.replicate xs.length 0
     ∧ (computeMethodPer dft SN e).S3 = List.replicate xs.length 0
     ∧ (computeMethodPer dft SN e).t = e.t
     ∧ (computeMethodPer dft SN e).signal = e.signal
     ∧ (computeMethodPer dft SN e).f = e.f
     ∧ (computeMethodPer dft SN e).S1n = e.S1n
     ∧ (computeMethodPer dft SN e).S2n = e.S2n
     ∧ (computeMethodPer dft SN e).S3n = e.S3n
     ∧ (computeMethodPer dft SN e).Phi = e.Phi)
    ∧ ((computeMethodMt dft SN tb m bw).densities
        = (computeMtCore dft SN tb t xs m.dpssMat bw).2
     ∧ (computeMethodMt dft SN tb m bw).dpssMat
        = (computeMtCore dft SN tb t xs m.dpssMat bw).1
     ∧ (computeMethodMt dft SN tb m bw).density = List.replicate xs.length zeroQ
     ∧ (computeMethodMt dft SN tb m bw).S0 = List.replicate xs.length 0
     ∧ (computeMethodMt dft SN tb m bw).S1 = List.replicate xs.length 0
     ∧ (computeMethodMt dft SN tb m bw).S2 = List.replicate xs.length 0
     ∧ (computeMethodMt dft SN tb m bw).S3 = List.replicate xs.length 0
     ∧ (computeMethodMt dft SN tb m bw).t = m.t
     ∧ (computeMethodMt dft SN tb m bw).signal = m.signal
     ∧ (computeMethodMt dft SN tb m bw).f = m.f
     ∧ (computeMethodMt dft SN tb m bw).density = m.density
     ∧ (computeMethodMt dft SN tb m bw).S1n = m.S1n
     ∧ (computeMethodMt dft SN tb m bw).S2n = m.S2n
     ∧ (computeMethodMt dft SN tb m bw).S3n = m.S3n
     ∧ (computeMethodMt dft SN tb m bw).Phi = m.Phi) := by
  simp only [mkPeriodogram, Except.ok.injEq] at he
  subst he
  have hgs := getStokes_replicate_zero xs.length
  constructor
  · exact ⟨rfl, congrArg (fun p => p.1) hgs, congrArg (fun p => p.2.1) hgs,
      congrArg (fun p => p.2.2.1) hgs, congrArg (fun p => p.2.2.2) hgs,
      rfl, rfl, rfl, rfl, rfl, rfl, rfl⟩
  · simp only [mkMultitaper] at hm
    split at hm
    · exact absurd hm (by simp)
    · simp only [Except.ok.injEq] at hm
      subst hm
      have hmean := meanCols_replicate_zero xs.length
        (⌊(2 * bw : ℚ)⌋ - 1).toNat
      have hms : getStokes (meanCols ⟨xs.length,
          List.replicate (⌊(2 * bw : ℚ)⌋ - 1).toNat (List.replicate xs.length zeroQ)⟩)
          = (List.replicate xs.length 0, List.replicate xs.length 0,
             List.replicate xs.length 0, List.replicate xs.length 0) := by
        rw [hmean]
        exact getStokes_replicate_zero xs.length
      exact ⟨rfl, rfl, hmean, congrArg (fun p => p.1) hms,
        congrArg (fun p => p.2.1) hms, congrArg (fun p => p.2.2.1) hms,
        congrArg (fun p => p.2.2.2) hms, rfl, rfl, rfl, rfl, rfl, rfl, rfl, rfl⟩

/-- Witness for C10 at concrete collaborators and input. -/
theorem C10_deferred_compute_keeps_stokes_zero_witness :
    (mkPeriodogram cDft cSN [0, 1] (.quat [⟨1, 0, 0, 0⟩, zeroQ]) false
      = .ok (getOkPer (mkPeriodogram cDft cSN [0, 1] (.quat [⟨1, 0, 0, 0⟩, zeroQ]) false)))
    ∧ (mkMultitaper cDft cSN cTB [0, 1] (.quat [⟨1, 0, 0, 0⟩, zeroQ]) (5 / 2) false
      = .ok (getOkMt (mkMultitaper cDft cSN cTB [0, 1] (.quat [⟨1, 0, 0, 0⟩, zeroQ]) (5 / 2) false)))
    ∧ (computeMethodPer cDft cSN
        (getOkPer (mkPeriodogram cDft cSN [0, 1] (.quat [⟨1, 0, 0, 0⟩, zeroQ]) false))).S0
        = List.replicate 2 0
    ∧ (computeMethodMt cDft cSN cTB
        (getOkMt (mkMultitaper cDft cSN cTB [0, 1] (.quat [⟨1, 0, 0, 0⟩, zeroQ]) (5 / 2) false)) (5 / 2)).density
        = List.replicate 2 zeroQ :=
  ⟨by rfl, by rfl,
   (C10_deferred_compute_keeps_stokes_zero cDft cSN cTB [0, 1] [⟨1, 0, 0, 0⟩, zeroQ]
     (5 / 2) _ _ (by rfl) (by rfl)).1.2.1,
   (C10_deferred_compute_keeps_stokes_zero cDft cSN cTB [0, 1] [⟨1, 0, 0, 0⟩, zeroQ]
     (5 / 2) _ _ (by rfl) (by rfl)).2.2.2.1⟩

/-- `perOne` scaled by the scalar `-1` through the public `__mul__`. -/
def perNeg : Per := getOkPer (mulPer cDft cSN perOne (.scalar (-1)))

/-- C6 counterexample: `(-1) * estimate` is reachable through the public API
(`np.size(-1) = 1` passes the only guard), and its extracted `S0` is negative
at frequency index 0. -/
theorem C6_counterexample_negative_scalar :
    mulPer cDft cSN perOne (.scalar (-1)) = .ok perNeg
    ∧ perNeg.S0.getD 0 0 < 0 :=
  ⟨by rfl, by decide⟩

/-- The real part of `p * j`. -/
theorem qmul_jQ_a (p : Quat) : (qmul p jQ).a = -p.c := by
  simp [qmul, jQ]

/-- The squared quaternion magnitude is non-negative. -/
theorem normSq_nonneg (q : Quat) : 0 ≤ normSq q := by
  unfold normSq
  positivity

/-- Real part of a periodogram density entry is non-negative whenever the
`StokesNorm` collaborator has no `j`-component and the time step is
non-negative. -/
theorem perDensityAt_a_nonneg (SN : Quat → Quat) (hSNc : ∀ q, (SN q).c = 0)
    (dt : ℚ) (hdt : 0 ≤ dt) (N : ℕ) (q : Quat) : 0 ≤ (perDensityAt SN dt N q).a := by
  show 0 ≤ dt / (N : ℚ) * (normSq q + (qmul (SN q) jQ).a)
  rw [qmul_jQ_a, hSNc, neg_zero, add_zero]
  exact mul_nonneg (div_nonneg hdt (Nat.cast_nonneg N)) (normSq_nonneg q)

/-- Real part of a per-taper multitaper density entry is non-negative under
the same conditions. -/
theorem mtDensityAt_a_nonneg (SN : Quat → Quat) (hSNc : ∀ q, (SN q).c = 0)
    (dt : ℚ) (hdt : 0 ≤ dt) (q : Quat) : 0 ≤ (mtDensityAt SN dt q).a := by
  show 0 ≤ dt * (normSq q + (qmul (SN q) jQ).a)
  rw [qmul_jQ_a, hSNc, neg_zero, add_zero]
  exact mul_nonneg hdt (normSq_nonneg q)

/-- Periodogram estimates reachable through the public API from valid inputs
(non-decreasing time step), with scalar multiplication restricted to
non-negative factors. -/
inductive PerReach (dft : List CQ → List CQ) (SN : Quat → Quat) : Per → Prop where
  | construct (t : List ℚ) (xs : List Quat) (flag : Bool) (e : Per)
      (hdt : 0 ≤ dtOf t)
      (he : mkPeriodogram dft SN t (.quat xs) flag = .ok e) : PerReach dft SN e
  | add (e1 e2 e : Per) (h1 : PerReach dft SN e1) (h2 : PerReach dft SN e2)
      (he : addPer dft SN e1 e2 = .ok e) : PerReach dft SN e
  | mulNN (e1 e : Per) (c : ℚ) (h1 : PerReach dft SN e1) (hc : 0 ≤ c)
      (he : mulPer dft SN e1 (.scalar c) = .ok e) : PerReach dft SN e

/-- Multitaper estimates reachable through the public API from valid inputs,
with scalar multiplication restricted to non-negative factors. -/
inductive MtReach (dft : List CQ → List CQ) (SN : Quat → Quat)
    (tb : ℕ → ℚ → ℕ → Mat2 ℚ × List ℚ) : Mt → Prop where
  | construct (t : List ℚ) (xs : List Quat) (bw : ℚ) (flag : Bool) (m : Mt)
      (hdt : 0 ≤ dtOf t)
      (hm : mkMultitaper dft SN tb t (.quat xs) bw flag = .ok m) : MtReach dft SN tb m
  | add (m1 m2 m : Mt) (h1 : MtReach dft SN tb m1) (h2 : MtReach dft SN tb m2)
      (hm : addMt dft SN tb m1 m2 = .ok m) : MtReach dft SN tb m
  | mulNN (m1 m : Mt) (c : ℚ) (h1 : MtReach dft SN tb m1) (hc : 0 ≤ c)
      (hm : mulMt dft SN tb m1 (.scalar c) = .ok m) : MtReach dft SN tb m

/-- Entrywise non-negativity of the summed density array. -/
theorem zipWith_qadd_a_nonneg (l1 l2 : List Quat) (k : ℕ)
    (h1 : 0 ≤ (l1.getD k zeroQ).a) (h2 : 0 ≤ (l2.getD k zeroQ).a) :
    0 ≤ ((List.zipWith qadd l1 l2).getD k zeroQ).a := by
  by_cases hk : k < (List.zipWith qadd l1 l2).length
  · have hk1 : k < l1.length := by simp only [List.length_zipWith] at hk; omega
    have hk2 : k < l2.length := by simp only [List.length_zipWith] at hk; omega
    rw [getD_zipWith_of_lt qadd l1 l2 k hk1 hk2 zeroQ zeroQ zeroQ]
    exact add_nonneg h1 h2
  · rw [getD_of_length_le _ _ (Nat.le_of_not_lt hk) _]
    exact le_refl 0

/-- Entrywise non-negativity of a scaled density array. -/
theorem map_qsmul_a_nonneg (l : List Quat) (c : ℚ) (hc : 0 ≤ c) (k : ℕ)
    (h : 0 ≤ (l.getD k zeroQ).a) :
    0 ≤ ((l.map (qsmul c)).getD k zeroQ).a := by
  by_cases hk : k < l.length
  · rw [getD_map_of_lt _ _ _ hk _ zeroQ]
    exact mul_nonneg hc h
  · rw [getD_of_length_le _ _ (by simpa using Nat.le_of_not_lt hk) _]
    exact le_refl 0

/-- Invariant behind amended C6 for `Periodogram`: along the public API the
stored `S0` is the real part of the stored density, whose entries stay
non-negative. -/
theorem perReach_invariant (dft : List CQ → List CQ) (SN : Quat → Quat)
    (hSNc : ∀ q, (SN q).c = 0) (e : Per) (h : PerReach dft SN e) :
    e.S0 = e.density.map (fun q => q.a) ∧ ∀ k, 0 ≤ (e.density.getD k zeroQ).a := by
  induction h with
  | construct t xs flag e' hdt he =>
    simp only [mkPeriodogram, Except.ok.injEq] at he
    subst he
    refine ⟨getStokes_S0 _, fun k => ?_⟩
    cases flag with
    | false =>
      show 0 ≤ ((List.replicate xs.length zeroQ).getD k zeroQ).a
      rw [getD_replicate_self]
      exact le_refl 0
    | true =>
      show 0 ≤ ((computePerDensity dft SN t xs).getD k zeroQ).a
      unfold computePerDensity
      by_cases hk : k < (Qfft dft xs).length
      · rw [getD_map_of_lt _ _ _ hk _ zeroQ]
        exact perDensityAt_a_nonneg SN hSNc _ hdt _ _
      · rw [getD_of_length_le _ _ (by simpa using Nat.le_of_not_lt hk) _]
        exact le_refl 0
  | add e1 e2 e' h1 h2 he ih1 ih2 =>
    simp only [addPer, numpyBoolIsTrue, Bool.false_eq_true, if_false,
      mkPeriodogram, Except.ok.injEq] at he
    subst he
    exact ⟨getStokes_S0 _, fun k => zipWith_qadd_a_nonneg _ _ k (ih1.2 k) (ih2.2 k)⟩
  | mulNN e1 e' c h1 hc he ih =>
    simp only [mulPer, npSize, gt_iff_lt, Nat.lt_irrefl, if_false,
      mkPeriodogram, Except.ok.injEq] at he
    subst he
    exact ⟨getStokes_S0 _, fun k => map_qsmul_a_nonneg _ c hc k (ih.2 k)⟩

/-- Real part of a scaled quaternion. -/
theorem qsmul_a (r : ℚ) (q : Quat) : (qsmul r q).a = r * q.a := rfl

/-- Column sums in `meanCols` preserve entrywise non-negativity of the real
part. -/
theorem foldr_qadd_a_nonneg (cols : List (List Quat)) (i : ℕ)
    (h : ∀ col ∈ cols, 0 ≤ (col.getD i zeroQ).a) :
    0 ≤ (cols.foldr (fun col acc => qadd (col.getD i zeroQ) acc) zeroQ).a := by
  induction cols with
  | nil => exact le_refl 0
  | cons hd tl ih =>
    simp only [List.foldr_cons]
    show 0 ≤ (hd.getD i zeroQ).a + (tl.foldr (fun col acc => qadd (col.getD i zeroQ) acc) zeroQ).a
    exact add_nonneg (h hd (by simp)) (ih fun col hc => h col (by simp [hc]))

/-- The componentwise mean keeps the real part non-negative when every
per-taper column has non-negative real parts. -/
theorem meanCols_a_nonneg (M : Mat2 Quat)
    (h : ∀ col ∈ M.cols, ∀ i, 0 ≤ (col.getD i zeroQ).a) (k : ℕ) :
    0 ≤ ((meanCols M).getD k zeroQ).a := by
  unfold meanCols
  by_cases hk : k < M.nrows
  · rw [getD_map_of_lt _ _ _ (by simpa using hk) zeroQ 0]
    rw [qsmul_a]
    exact mul_nonneg (by positivity) (foldr_qadd_a_nonneg _ _ (fun col hc => h col hc _))
  · rw [getD_of_length_le _ _ (by simpa using Nat.le_of_not_lt hk) _]
    exact le_refl 0

/-- Invariant behind amended C6 for `Multitaper`. -/
theorem mtReach_invariant (dft : List CQ → List CQ) (SN : Quat → Quat)
    (tb : ℕ → ℚ → ℕ → Mat2 ℚ × List ℚ)
    (hSNc : ∀ q, (SN q).c = 0) (m : Mt) (h : MtReach dft SN tb m) :
    m.S0 = m.density.map (fun q => q.a) ∧ ∀ k, 0 ≤ (m.density.getD k zeroQ).a := by
  induction h with
  | construct t xs bw flag m' hdt hm =>
    simp only [mkMultitaper] at hm
    split at hm
    · exact absurd hm (by simp)
    · simp only [Except.ok.injEq] at hm
      subst hm
      refine ⟨getStokes_S0 _, fun k => ?_⟩
      refine meanCols_a_nonneg _ (fun col hc i => ?_) k
      cases flag with
      | false =>
        simp only [Bool.false_eq_true, if_false] at hc
        rw [List.eq_of_mem_replicate hc, getD_replicate_self]
        exact le_refl 0
      | true =>
        simp only [if_true, computeMtCore, List.mem_map] at hc
        obtain ⟨n, _, hcol⟩ := hc
        subst hcol
        set Q := Qfft dft (List.zipWith (fun q w => qsmul w q) xs _) with hQ
        by_cases hi : i < Q.length
        · rw [getD_map_of_lt _ _ _ hi _ zeroQ]
          exact mtDensityAt_a_nonneg SN hSNc _ hdt _
        · rw [getD_of_length_le _ _ (by simpa using Nat.le_of_not_lt hi) _]
          exact le_refl 0
  | add m1 m2 m' h1 h2 hm ih1 ih2 =>
    simp only [addMt, numpyBoolIsTrue, Bool.false_eq_true, if_false,
      mkMultitaper] at hm
    rw [if_neg (by decide : ¬ ((⌊(2 * (5 / 2 : ℚ))⌋ - 1 : ℤ) < 0))] at hm
    simp only [Except.ok.injEq] at hm
    subst hm
    exact ⟨getStokes_S0 _, fun k => zipWith_qadd_a_nonneg _ _ k (ih1.2 k) (ih2.2 k)⟩
  | mulNN m1 m' c h1 hc hm ih =>
    simp only [mulMt, npSize, gt_iff_lt, Nat.lt_irrefl, if_false,
      mkMultitaper] at hm
    rw [if_neg (by decide : ¬ ((⌊(2 * (5 / 2 : ℚ))⌋ - 1 : ℤ) < 0))] at hm
    simp only [Except.ok.injEq] at hm
    subst hm
    exact ⟨getStokes_S0 _, fun k => map_qsmul_a_nonneg _ c hc k (ih.2 k)⟩

/-- C6 amended: restricted to non-negative scalar factors (the counterexample
shows a negative factor breaks the claim), and granting the spec's reading of
the external `StokesNorm` (no `j`-component, so that `S0` derives from the
squared-magnitude term) together with a valid non-decreasing time axis, every
estimate of either class reachable through construction, addition, and scalar
multiplication has a non-negative `S0` at every index. -/
theorem C6_amended_S0_nonneg :
    (∀ (dft : List CQ → List CQ) (SN : Quat → Quat), (∀ q, (SN q).c = 0) →
      ∀ e, PerReach dft SN e → ∀ k, 0 ≤ e.S0.getD k 0)
    ∧ (∀ (dft : List CQ → List CQ) (SN : Quat → Quat)
        (tb : ℕ → ℚ → ℕ → Mat2 ℚ × List ℚ), (∀ q, (SN q).c = 0) →
      ∀ m, MtReach dft SN tb m → ∀ k, 0 ≤ m.S0.getD k 0) := by
  constructor
  · intro dft SN hSNc e h k
    obtain ⟨hS0, hd⟩ := perReach_invariant dft SN hSNc e h
    rw [hS0]
    by_cases hk : k < e.density.length
    · rw [getD_map_of_lt _ _ _ hk _ zeroQ]
      exact hd k
    · rw [getD_of_length_le _ _ (by simpa using Nat.le_of_not_lt hk) _]
  · intro dft SN tb hSNc m h k
    obtain ⟨hS0, hd⟩ := mtReach_invariant dft SN tb hSNc m h
    rw [hS0]
    by_cases hk : k < m.density.length
    · rw [getD_map_of_lt _ _ _ hk _ zeroQ]
      exact hd k
    · rw [getD_of_length_le _ _ (by simpa using Nat.le_of_not_lt hk) _]

/-- Witness for amended C6 on concrete reachable estimates of both classes. -/
theorem C6_amended_S0_nonneg_witness :
    (∀ q, (cSN q).c = 0)
    ∧ (0 ≤ dtOf [0, 1])
    ∧ (mkPeriodogram cDft cSN [0, 1] (.quat [⟨1, 0, 0, 0⟩, zeroQ]) true = .ok perOne)
    ∧ (0 ≤ perOne.S0.getD 0 0)
    ∧ (mkMultitaper cDft cSN cTB [0, 1] (.quat [⟨1, 0, 0, 0⟩, zeroQ]) (5 / 2) true = .ok mtOne)
    ∧ (0 ≤ mtOne.S0.getD 0 0) :=
  ⟨fun _ => rfl, by decide, by rfl,
   C6_amended_S0_nonneg.1 cDft cSN (fun _ => rfl) perOne
     (.construct [0, 1] [⟨1, 0, 0, 0⟩, zeroQ] true perOne (by decide) (by rfl)) 0,
   by rfl,
   C6_amended_S0_nonneg.2 cDft cSN cTB (fun _ => rfl) mtOne
     (.construct [0, 1] [⟨1, 0, 0, 0⟩, zeroQ] (5 / 2) true mtOne (by decide) (by rfl)) 0⟩
